import Mathlib

/-!
Verification of the netbox-csv-backup exporter (src/backup.py).

The development shallowly embeds the Python program: Python runtime values
become the inductive type `Value`, NetBox API objects become attribute
association lists, and each function of the source file becomes a Lean
definition with the same name (`extract_field_value`, `get_netbox_endpoint`,
`backup_from_config`, `backup_all_loop`).  Fallible Python code (raising
exceptions) is embedded with `Except String`.
-/

set_option maxRecDepth 4000

namespace NetboxBackup

/-- A Python runtime value as seen by backup.py: `None`, strings, ints,
booleans, dicts with string keys, lists, and pynetbox `Record` objects
(attribute containers built from API responses). -/
inductive Value where
  | vnull : Value
  | vstr (s : String) : Value
  | vint (n : Int) : Value
  | vbool (b : Bool) : Value
  | vdict (entries : List (String × Value)) : Value
  | vlist (items : List Value) : Value
  | vrec (attrs : List (String × Value)) : Value

/-- A NetBox API object (pynetbox Record) is its attribute map. -/
abbrev Obj := List (String × Value)

/-- First-match association-list lookup: models Python dict lookup /
attribute access on Records. -/
def lookupA {α : Type} : List (String × α) → String → Option α
  | [], _ => none
  | (k, v) :: rest, key => if k = key then some v else lookupA rest key

/-- Python truthiness for the embedded values. -/
def truthyV : Value → Bool
  | .vnull => false
  | .vstr s => !(s == "")
  | .vint n => !(n == 0)
  | .vbool b => b
  | .vdict d => !d.isEmpty
  | .vlist l => !l.isEmpty
  | .vrec _ => true

/-- `hasattr(v, k)`: only Record objects expose data attributes; every
Python object has the special attribute dunder-class (used by the source
only as `hasattr(value, ...)` guard before the type-name test). -/
def hasattrV (v : Value) (k : String) : Bool :=
  if k = "__class__" then true
  else
    match v with
    | .vrec attrs => (lookupA attrs k).isSome
    | _ => false

/-- `getattr(v, k)` on a Record; `none` elsewhere (the source always guards
attribute access with `hasattr`). -/
def getattrV (v : Value) (k : String) : Option Value :=
  match v with
  | .vrec attrs => lookupA attrs k
  | _ => none

/-- Models the source test `hasattr(value, ...) and and-Record-in
str(type(value))`: true exactly for Record objects. -/
def isRecordV : Value → Bool
  | .vrec _ => true
  | _ => false

/-- `len(v)` for sized values; `none` models the `TypeError` raised by
Python `len` on unsized values. -/
def pyLen : Value → Option Nat
  | .vstr s => some s.length
  | .vdict d => some d.length
  | .vlist l => some l.length
  | _ => none

/-- `v[0]`: head of a list, first character of a string; `none` models the
`KeyError`/`TypeError` raised elsewhere. -/
def pyIndex0 : Value → Option Value
  | .vlist (x :: _) => some x
  | .vstr s =>
    match s.data with
    | c :: _ => some (.vstr (String.singleton c))
    | [] => none
  | _ => none

/-- The apostrophe character, used by Python repr of strings. -/
def aposChar : Char := Char.ofNat 39

/-- Python repr quoting of a string (escape refinements not modelled; no
claim depends on container stringification). -/
def quoteStr (s : String) : String :=
  String.singleton aposChar ++ s ++ String.singleton aposChar

mutual

/-- Python `repr` of an embedded value. -/
def pyRepr : Value → String
  | .vnull => "None"
  | .vstr s => quoteStr s
  | .vint n => toString n
  | .vbool b => cond b "True" "False"
  | .vdict d => "\x7b" ++ pyReprEntries d ++ "\x7d"
  | .vlist l => "[" ++ pyReprItems l ++ "]"
  | .vrec a => "Record(" ++ pyReprEntries a ++ ")"

/-- repr of dict entries, comma separated. -/
def pyReprEntries : List (String × Value) → String
  | [] => ""
  | [(k, v)] => quoteStr k ++ ": " ++ pyRepr v
  | (k, v) :: rest => quoteStr k ++ ": " ++ pyRepr v ++ ", " ++ pyReprEntries rest

/-- repr of list items, comma separated. -/
def pyReprItems : List Value → String
  | [] => ""
  | [v] => pyRepr v
  | v :: rest => pyRepr v ++ ", " ++ pyReprItems rest

end

/-- Nonempty string attribute of a Record, if present. -/
def strAttr (a : List (String × Value)) (k : String) : Option String :=
  match lookupA a k with
  | some (.vstr s) => if s = "" then none else some s
  | _ => none

/-- Modelled from the external pynetbox library (not part of this
repository): `Record.__str__` returns the first truthy of the name, label
and display attributes, else the empty string. -/
def recStr (a : List (String × Value)) : String :=
  match strAttr a "name" with
  | some s => s
  | none =>
    match strAttr a "label" with
    | some s => s
    | none =>
      match strAttr a "display" with
      | some s => s
      | none => ""

/-- Python `str(v)`. -/
def pyStr (v : Value) : String :=
  match v with
  | .vstr s => s
  | .vrec a => recStr a
  | v => pyRepr v

/-! ### String normalization (backup.py lines 508-518)

The source flattens each cell with
`str_value.replace(crlf, sp).replace(lf, sp).replace(cr, sp)` followed by
`sp.join(str_value.split())`.  We embed it on character lists. -/

/-- Python str.split() whitespace (ASCII part). -/
def isWs (c : Char) : Bool :=
  c = ' ' || c = '\t' || c = '\n' || c = '\r' || c = '\x0b' || c = '\x0c'

/-- `s.replace(crlf, space)`: left-to-right, non-overlapping. -/
def replaceCRLF : List Char → List Char
  | [] => []
  | [c] => [c]
  | c :: d :: rest =>
    if c = '\r' ∧ d = '\n' then ' ' :: replaceCRLF rest
    else c :: replaceCRLF (d :: rest)

/-- Single-character `s.replace(a, b)`. -/
def replaceChar (a b : Char) (s : List Char) : List Char :=
  s.map (fun c => if c = a then b else c)

/-- The three successive replace calls of the source. -/
def flattenNewlines (s : List Char) : List Char :=
  replaceChar '\r' ' ' (replaceChar '\n' ' ' (replaceCRLF s))

/-- Worker for Python `str.split()`: accumulates the current word. -/
def splitWsGo : List Char → List Char → List (List Char)
  | [], acc => if acc = [] then [] else [acc]
  | c :: rest, acc =>
    if isWs c then (if acc = [] then [] else [acc]) ++ splitWsGo rest []
    else splitWsGo rest (acc ++ [c])

/-- Python `str.split()` with no arguments. -/
def splitWs (s : List Char) : List (List Char) := splitWsGo s []

/-- Python `sp.join(words)` with a single-space separator. -/
def joinWords : List (List Char) → List Char
  | [] => []
  | [w] => w
  | w :: ws => w ++ ' ' :: joinWords ws

/-- The whole normalization pipeline on characters. -/
def normChars (s : List Char) : List Char :=
  joinWords (splitWs (flattenNewlines s))

/-- The cell normalization of backup.py: flatten newlines, collapse
whitespace runs, trim. -/
def normalize (s : String) : String :=
  String.mk (normChars s.data)

/-- Detects two consecutive space characters. -/
def hasDoubleSpace : List Char → Bool
  | c :: d :: rest => (c = ' ' && d = ' ') || hasDoubleSpace (d :: rest)
  | _ => false

/-! ### Field value extraction (backup.py lines 144-422) -/

/-- Fields forced to export a name instead of an identifier
(backup.py lines 312-316). -/
def relationship_name_fields : List String :=
  ["parent", "region", "tenant", "site", "location", "rack",
   "manufacturer", "device_type", "device_role", "role", "platform",
   "cluster", "cluster_type", "cluster_group", "circuit", "circuit_type",
   "circuit_provider", "provider", "virtual_chassis", "config_template",
   "fhrp_group", "l2vpn", "virtual_circuit", "vrf", "group"]

/-- Relationship branch (lines 318-330): dict values yield str(name) or
str(id); Record-like values yield the raw name or id attribute; `none`
models falling through to the next rule. -/
def relationshipValue (value : Value) : Option Value :=
  match value with
  | .vdict d =>
    match lookupA d "name" with
    | some n => some (.vstr (pyStr n))
    | none =>
      match lookupA d "id" with
      | some i => some (.vstr (pyStr i))
      | none => none
  | _ =>
    if hasattrV value "name" then some ((getattrV value "name").getD .vnull)
    else if hasattrV value "id" then some ((getattrV value "id").getD .vnull)
    else none

/-- Shared body of the Record branch (lines 338-356) and the dict branch
(lines 362-380): machine value for the preferred fields, else label, else
value, else str of the first entry value; `none` when the container is
empty. -/
def choiceCore (field : String) (d : List (String × Value)) : Option Value :=
  let tryValue :=
    match lookupA d "value" with
    | some v => if truthyV v then some (Value.vstr (pyStr v)) else none
    | none => none
  let tryLabel :=
    match lookupA d "label" with
    | some l => if truthyV l then some (Value.vstr (pyStr l)) else none
    | none => none
  let firstVal :=
    match d with
    | [] => none
    | (_, v0) :: _ => some (Value.vstr (pyStr v0))
  if field = "action_type" ∨ field = "status" then
    match tryValue with
    | some r => some r
    | none =>
      match tryLabel with
      | some r => some r
      | none => firstVal
  else
    match tryLabel with
    | some r => some r
    | none =>
      match tryValue with
      | some r => some r
      | none => firstVal

/-- The action_object branch of extract_field_value (lines 385-396). -/
def actionObjectValue (value : Value) : Option Value :=
  match value with
  | .vdict d =>
    match lookupA d "name" with
    | some n => some (.vstr (pyStr n))
    | none =>
      match lookupA d "id" with
      | some i => some (.vstr (pyStr i))
      | none => none
  | _ =>
    if hasattrV value "name" then some ((getattrV value "name").getD .vnull)
    else none

/-- One tag-list element (lines 412-418): slug, else name, else str. -/
def tagString (item : Value) : String :=
  if hasattrV item "slug" then pyStr ((getattrV item "slug").getD .vnull)
  else if hasattrV item "name" then pyStr ((getattrV item "name").getD .vnull)
  else pyStr item

/-- The list branch (lines 407-419). -/
def listValue (items : List Value) : Value :=
  if items.isEmpty then .vstr ""
  else .vstr (String.intercalate "," (items.map tagString))

/-- Base attribute lookup and the rule chain that follows it
(backup.py lines 305-422). -/
def extractBase (obj : Obj) (field : String) : Value :=
  let value := (lookupA obj field).getD .vnull
  match value with
  | .vnull => .vstr ""
  | value =>
    match (if relationship_name_fields.contains field
           then relationshipValue value else none) with
    | some r => r
    | none =>
      match (match value with
             | .vrec attrs => choiceCore field attrs
             | _ => none) with
      | some r => r
      | none =>
        match value with
        | .vdict d => (choiceCore field d).getD (.vstr "")
        | value =>
          match (if field = "action_object" then actionObjectValue value
                 else none) with
          | some r => r
          | none =>
            if hasattrV value "name" then (getattrV value "name").getD .vnull
            else if hasattrV value "slug" then (getattrV value "slug").getD .vnull
            else if hasattrV value "id" then (getattrV value "id").getD .vnull
            else
              match value with
              | .vlist items => listValue items
              | value => .vstr (pyStr value)

/-- The assigned_object branch (backup.py lines 168-201): invoked only when
the assigned object is truthy and the field is device, virtual_machine or
interface; every non-returning path ends in the empty string. -/
def extractAssigned (a : Value) (field : String) : Value :=
  match a with
  | .vdict d =>
    if field = "device" then
      match lookupA d "device" with
      | some device =>
        if truthyV device then
          match device with
          | .vdict dd => (lookupA dd "name").getD (.vstr "")
          | device =>
            if hasattrV device "name" then (getattrV device "name").getD .vnull
            else .vstr ""
        else .vstr ""
      | none => .vstr ""
    else if field = "virtual_machine" then
      match lookupA d "virtual_machine" with
      | some vm =>
        match vm with
        | .vdict vd => (lookupA vd "name").getD (.vstr "")
        | vm =>
          if hasattrV vm "name" then (getattrV vm "name").getD .vnull
          else .vstr ""
      | none => .vstr ""
    else if field = "interface" then
      match lookupA d "name" with
      | some nv => .vstr (pyStr nv)
      | none => .vstr ""
    else .vstr ""
  | a =>
    if field = "device" then
      if hasattrV a "device" ∧ truthyV ((getattrV a "device").getD .vnull) then
        let device := (getattrV a "device").getD .vnull
        if hasattrV device "name" then (getattrV device "name").getD .vnull
        else .vstr (pyStr device)
      else .vstr ""
    else if field = "virtual_machine" then
      if hasattrV a "virtual_machine" ∧
         truthyV ((getattrV a "virtual_machine").getD .vnull) then
        let vm := (getattrV a "virtual_machine").getD .vnull
        if hasattrV vm "name" then (getattrV vm "name").getD .vnull
        else .vstr (pyStr vm)
      else .vstr ""
    else if field = "interface" then
      if hasattrV a "name" then .vstr (pyStr ((getattrV a "name").getD .vnull))
      else .vstr ""
    else .vstr ""

/-- Wireless-link device side (lines 206-210 and 223-227). -/
def wlDevice (obj : Obj) (ikey : String) : Value :=
  match lookupA obj ikey with
  | some iface =>
    if truthyV iface then
      if hasattrV iface "device" ∧
         truthyV ((getattrV iface "device").getD .vnull) then
        let device := (getattrV iface "device").getD .vnull
        if hasattrV device "name" then (getattrV device "name").getD .vnull
        else .vstr (pyStr device)
      else .vstr ""
    else .vstr ""
  | none => .vstr ""

/-- Wireless-link interface side (lines 211-215 and 228-232). -/
def wlInterface (obj : Obj) (ikey : String) : Value :=
  match lookupA obj ikey with
  | some iface =>
    if truthyV iface then
      if hasattrV iface "name"
      then .vstr (pyStr ((getattrV iface "name").getD .vnull))
      else .vstr ""
    else .vstr ""
  | none => .vstr ""

/-- Wireless-link site side (lines 216-222 and 233-239). -/
def wlSite (obj : Obj) (ikey : String) : Value :=
  match lookupA obj ikey with
  | some iface =>
    if truthyV iface then
      if hasattrV iface "device" ∧
         truthyV ((getattrV iface "device").getD .vnull) then
        let device := (getattrV iface "device").getD .vnull
        if hasattrV device "site" ∧
           truthyV ((getattrV device "site").getD .vnull) then
          let site := (getattrV device "site").getD .vnull
          if hasattrV site "name" then (getattrV site "name").getD .vnull
          else .vstr (pyStr site)
        else .vstr ""
      else .vstr ""
    else .vstr ""
  | none => .vstr ""

/-- The six wireless-link field names handled by lines 205-239. -/
def wirelessFieldNames : List String :=
  ["device_a", "interface_a", "site_a", "device_b", "interface_b", "site_b"]

/-- Dispatch of the wireless-link block. -/
def wirelessField (obj : Obj) (field : String) : Value :=
  if field = "device_a" then wlDevice obj "interface_a"
  else if field = "interface_a" then wlInterface obj "interface_a"
  else if field = "site_a" then wlSite obj "interface_a"
  else if field = "device_b" then wlDevice obj "interface_b"
  else if field = "interface_b" then wlInterface obj "interface_b"
  else if field = "site_b" then wlSite obj "interface_b"
  else .vstr ""

/-- Termination device (lines 248-249 etc.). -/
def termDevice (term : Value) : Value :=
  if hasattrV term "device" ∧
     truthyV ((getattrV term "device").getD .vnull) then
    let device := (getattrV term "device").getD .vnull
    if hasattrV device "name" then (getattrV device "name").getD .vnull
    else .vstr (pyStr device)
  else .vstr ""

/-- Termination type (lines 255-256 etc.). -/
def termType (term : Value) : Value :=
  if hasattrV term "type" then
    let t := (getattrV term "type").getD .vnull
    if truthyV t then .vstr (pyStr t) else .vstr ""
  else .vstr ""

/-- Termination name (lines 262-263 etc.). -/
def termName (term : Value) : Value :=
  if hasattrV term "name" then
    let t := (getattrV term "name").getD .vnull
    if truthyV t then .vstr (pyStr t) else .vstr ""
  else .vstr ""

/-- Termination site (lines 269-272 etc.). -/
def termSite (term : Value) : Value :=
  if hasattrV term "device" ∧
     truthyV ((getattrV term "device").getD .vnull) then
    let device := (getattrV term "device").getD .vnull
    if hasattrV device "site" ∧
       truthyV ((getattrV device "site").getD .vnull) then
      let site := (getattrV device "site").getD .vnull
      if hasattrV site "name" then (getattrV site "name").getD .vnull
      else .vstr (pyStr site)
    else .vstr ""
  else .vstr ""

/-- One cable side (lines 245-250 pattern): fetch the termination list
(defaulting to an empty list), test truthiness then `len`, take element 0.
`len` and indexing can raise, hence the `Except`. -/
def cableSide (obj : Obj) (tkey : String) (f : Value → Value) :
    Except String Value :=
  let terminations := (lookupA obj tkey).getD (.vlist [])
  if truthyV terminations then
    match pyLen terminations with
    | none => .error "TypeError: object has no len"
    | some n =>
      if n > 0 then
        match pyIndex0 terminations with
        | none => .error "TypeError: object is not indexable"
        | some term => .ok (f term)
      else .ok (.vstr "")
  else .ok (.vstr "")

/-- The eight cable termination field names handled by lines 243-303. -/
def sideFieldNames : List String :=
  ["side_a_device", "side_a_type", "side_a_name", "side_a_site",
   "side_b_device", "side_b_type", "side_b_name", "side_b_site"]

/-- Dispatch of the cable termination block. -/
def cableField (obj : Obj) (field : String) : Except String Value :=
  if field = "side_a_device" then cableSide obj "a_terminations" termDevice
  else if field = "side_a_type" then cableSide obj "a_terminations" termType
  else if field = "side_a_name" then cableSide obj "a_terminations" termName
  else if field = "side_a_site" then cableSide obj "a_terminations" termSite
  else if field = "side_b_device" then cableSide obj "b_terminations" termDevice
  else if field = "side_b_type" then cableSide obj "b_terminations" termType
  else if field = "side_b_name" then cableSide obj "b_terminations" termName
  else if field = "side_b_site" then cableSide obj "b_terminations" termSite
  else .ok (.vstr "")

/-- extract_field_value (backup.py lines 144-422).  The priority chain:
assigned-object fields, wireless-link sided fields, cable-termination sided
fields, then base attribute lookup with its sub-rules.  The result is any
Python value (the source returns raw attribute values in several branches);
`Except.error` models an uncaught exception. -/
def extract_field_value (obj : Obj) (field : String) : Except String Value :=
  if truthyV ((lookupA obj "assigned_object").getD .vnull) &&
     (field == "device" || field == "virtual_machine" || field == "interface")
  then
    .ok (extractAssigned ((lookupA obj "assigned_object").getD .vnull) field)
  else if ((lookupA obj "interface_a").isSome ||
           (lookupA obj "interface_b").isSome) &&
          wirelessFieldNames.contains field then
    .ok (wirelessField obj field)
  else if ((lookupA obj "a_terminations").isSome ||
           (lookupA obj "b_terminations").isSome) &&
          sideFieldNames.contains field then
    cableField obj field
  else
    .ok (extractBase obj field)

/-! ### Endpoint resolution (backup.py lines 14-141) -/

/-- An endpoint handle `nb.<app>.<attr>` is named by its app and attribute. -/
abbrev Endpoint := String × String

/-- The static object-type table of get_netbox_endpoint (lines 26-119),
each value naming the pynetbox attribute path it evaluates to. -/
def endpoint_map : List (String × Endpoint) :=
  [("tags", ("extras", "tags")),
   ("data-sources", ("core", "data_sources")),
   ("webhooks", ("extras", "webhooks")),
   ("event-rules", ("extras", "event_rules")),
   ("config-templates", ("extras", "config_templates")),
   ("export-templates", ("extras", "export_templates")),
   ("regions", ("dcim", "regions")),
   ("sites", ("dcim", "sites")),
   ("site-groups", ("dcim", "site_groups")),
   ("locations", ("dcim", "locations")),
   ("racks", ("dcim", "racks")),
   ("devices", ("dcim", "devices")),
   ("virtual-chassis", ("dcim", "virtual_chassis")),
   ("virtual-device-contexts", ("dcim", "virtual_device_contexts")),
   ("platforms", ("dcim", "platforms")),
   ("modules", ("dcim", "modules")),
   ("inventory-item-roles", ("dcim", "inventory_item_roles")),
   ("inventory-items", ("dcim", "inventory_items")),
   ("rear-ports", ("dcim", "rear_ports")),
   ("front-ports", ("dcim", "front_ports")),
   ("console-ports", ("dcim", "console_ports")),
   ("console-server-ports", ("dcim", "console_server_ports")),
   ("power-ports", ("dcim", "power_ports")),
   ("power-outlets", ("dcim", "power_outlets")),
   ("power-panels", ("dcim", "power_panels")),
   ("power-feeds", ("dcim", "power_feeds")),
   ("module-bays", ("dcim", "module_bays")),
   ("device-bays", ("dcim", "device_bays")),
   ("interfaces", ("dcim", "interfaces")),
   ("mac-addresses", ("dcim", "mac_addresses")),
   ("cables", ("dcim", "cables")),
   ("wireless-links", ("wireless", "wireless_links")),
   ("wireless-lan-groups", ("wireless", "wireless_lan_groups")),
   ("wireless-lans", ("wireless", "wireless_lans")),
   ("vpn-tunnel-groups", ("vpn", "tunnel_groups")),
   ("vpn-tunnels", ("vpn", "tunnels")),
   ("tunnel-terminations", ("vpn", "tunnel_terminations")),
   ("l2vpn", ("vpn", "l2vpns")),
   ("l2vpn-terminations", ("vpn", "l2vpn_terminations")),
   ("ike-proposals", ("vpn", "ike_proposals")),
   ("ike-policies", ("vpn", "ike_policies")),
   ("ipsec-proposals", ("vpn", "ipsec_proposals")),
   ("ipsec-policies", ("vpn", "ipsec_policies")),
   ("ipsec-profiles", ("vpn", "ipsec_profiles")),
   ("cluster-groups", ("virtualization", "cluster_groups")),
   ("cluster-types", ("virtualization", "cluster_types")),
   ("clusters", ("virtualization", "clusters")),
   ("virtual-machines", ("virtualization", "virtual_machines")),
   ("vm-interfaces", ("virtualization", "interfaces")),
   ("virtual-disks", ("virtualization", "virtual_disks")),
   ("manufacturers", ("dcim", "manufacturers")),
   ("device-types", ("dcim", "device_types")),
   ("module-type-profiles", ("dcim", "module_type_profiles")),
   ("module-types", ("dcim", "module_types")),
   ("device-roles", ("dcim", "device_roles")),
   ("rack-types", ("dcim", "rack_types")),
   ("rack-roles", ("dcim", "rack_roles")),
   ("reservations", ("dcim", "rack_reservations")),
   ("circuits", ("circuits", "circuits")),
   ("circuit-providers", ("circuits", "providers")),
   ("providers", ("circuits", "providers")),
   ("circuit-provider-accounts", ("circuits", "provider_accounts")),
   ("circuit-groups", ("circuits", "circuit_groups")),
   ("circuit-types", ("circuits", "circuit_types")),
   ("circuit-terminations", ("circuits", "circuit_terminations")),
   ("provider-networks", ("circuits", "provider_networks")),
   ("virtual-circuits", ("circuits", "virtual_circuits")),
   ("virtual-circuit-terminations", ("circuits", "virtual_circuit_terminations")),
   ("circuit-assignments", ("circuits", "circuit_group_assignments")),
   ("tenants", ("tenancy", "tenants")),
   ("tenant-groups", ("tenancy", "tenant_groups")),
   ("contacts", ("tenancy", "contacts")),
   ("contact-groups", ("tenancy", "contact_groups")),
   ("contact-roles", ("tenancy", "contact_roles")),
   ("contact-assignments", ("tenancy", "contact_assignments")),
   ("vlan-groups", ("ipam", "vlan_groups")),
   ("vlans", ("ipam", "vlans")),
   ("vlan-translation-policies", ("ipam", "vlan_translation_policies")),
   ("vlan-translation-rules", ("ipam", "vlan_translation_rules")),
   ("vrfs", ("ipam", "vrfs")),
   ("route-targets", ("ipam", "route_targets")),
   ("prefixes", ("ipam", "prefixes")),
   ("roles", ("ipam", "roles")),
   ("ip-addresses", ("ipam", "ip_addresses")),
   ("ip-ranges", ("ipam", "ip_ranges")),
   ("fhrp-groups", ("ipam", "fhrp_groups")),
   ("service-templates", ("ipam", "service_templates")),
   ("services", ("ipam", "services")),
   ("asns", ("ipam", "asns")),
   ("asn-ranges", ("ipam", "asn_ranges")),
   ("rirs", ("ipam", "rirs")),
   ("aggregates", ("ipam", "aggregates"))]

/-- `s.replace(hyphen, underscore)`. -/
def underscoreName (s : String) : String :=
  String.mk (s.data.map (fun c => if c = '-' then '_' else c))

/-- Python `s.split(hyphen)`: split on every hyphen, keeping empty parts. -/
def splitOnHyphen : List Char → List (List Char)
  | [] => [[]]
  | c :: rest =>
    if c = '-' then [] :: splitOnHyphen rest
    else
      match splitOnHyphen rest with
      | w :: ws => (c :: w) :: ws
      | [] => [[c]]

/-- The dynamic shape of the pynetbox client: app names with the attribute
names each app exposes (used only by the reflective fallback). -/
abbrev Netbox := List (String × List String)

/-- get_netbox_endpoint (lines 121-141): exact table match, then the table
keyed with hyphens replaced by underscores, then the two-part reflective
lookup, else the unknown-object-type error. -/
def get_netbox_endpoint (nb : Netbox) (object_type : String) :
    Except String Endpoint :=
  match lookupA endpoint_map object_type with
  | some e => .ok e
  | none =>
    match lookupA endpoint_map (underscoreName object_type) with
    | some e => .ok e
    | none =>
      match splitOnHyphen object_type.data with
      | [app, res] =>
        match lookupA nb (String.mk app) with
        | some attrs =>
          let resource_attr :=
            String.mk (res.map (fun c => if c = '-' then '_' else c))
          if attrs.contains resource_attr then .ok (String.mk app, resource_attr)
          else .error ("Unknown object type: " ++ object_type)
        | none => .error ("Unknown object type: " ++ object_type)
      | _ => .error ("Unknown object type: " ++ object_type)

/-! ### Per-file export and the overall run (backup.py lines 425-604) -/

/-- The regex match of the source,
re.match over digits, a hyphen and a nonempty remainder:
returns the captured object-type part of a config filename stem. -/
def numDashMatch (s : List Char) : Option (List Char) :=
  let ds := s.takeWhile Char.isDigit
  match s.drop ds.length with
  | '-' :: rest => if ds = [] ∨ rest = [] then none else some rest
  | _ => none

/-- A discovered configuration file: its path (for messages), its stem, and
the fields list loaded from YAML (empty when the key is missing). -/
structure ConfigFile where
  name : String
  stem : String
  fields : List String

/-- The CSV artefact produced for one object type. -/
structure CsvOutput where
  filename : String
  header : List String
  rows : List (List (String × String))

/-- Outcome of backup_from_config when it returns normally: either a
printed warning with the file skipped, or an exported CSV. -/
inductive RunResult where
  | skipped (msg : String) : RunResult
  | exported (out : CsvOutput) : RunResult

/-- Row-loop value computation (lines 492-505): the action_object special
case, else the extractor. -/
def rowValue (obj : Obj) (field : String) : Except String Value :=
  if field = "action_object" then
    let ao := (lookupA obj "action_object").getD .vnull
    if truthyV ao then
      if hasattrV ao "name" then .ok ((getattrV ao "name").getD .vnull)
      else
        match ao with
        | .vdict d =>
          match lookupA d "name" with
          | some n => .ok n
          | none => extract_field_value obj field
        | _ => extract_field_value obj field
    else .ok (.vstr "")
  else extract_field_value obj field

/-- Cell conversion (lines 508-518): None and the empty string stay empty,
anything else is stringified and normalized. -/
def cellString (v : Value) : String :=
  match v with
  | .vnull => ""
  | .vstr "" => ""
  | v => normalize (pyStr v)

/-- One CSV data row (lines 486-518): the fields in configured order, the
id field skipped, each value normalized. -/
def buildRow (obj : Obj) (fields : List String) :
    Except String (List (String × String)) :=
  (fields.filter (fun f => f ≠ "id")).mapM
    (fun f => (rowValue obj f).map (fun v => (f, cellString v)))

/-- backup_from_config (lines 425-522).  Configuration errors raise
(`Except.error`); endpoint-resolution and fetch errors print a message and
return (`RunResult.skipped`); otherwise the CSV output is produced.  The
`fetch` parameter models `endpoint.all()`. -/
def backup_from_config (nb : Netbox)
    (fetch : Endpoint → Except String (List Obj)) (cfg : ConfigFile) :
    Except String RunResult :=
  if cfg.fields.isEmpty then
    .error ("No fields specified in configuration file: " ++ cfg.name)
  else
    let fields := cfg.fields.filter (fun f => f ≠ "id")
    if fields.isEmpty then
      .error ("No fields remaining after removing id from configuration file: "
        ++ cfg.name)
    else
      match numDashMatch cfg.stem.data with
      | none =>
        .error ("Invalid config filename format: " ++ cfg.name ++
          ". Expected format: N-objecttype.yml")
      | some otChars =>
        let object_type := String.mk otChars
        match get_netbox_endpoint nb object_type with
        | .error e =>
          .ok (.skipped ("Warning: " ++ e ++ ". Skipping " ++ cfg.name))
        | .ok endpoint =>
          match fetch endpoint with
          | .error e =>
            .ok (.skipped ("Error querying NetBox for " ++ object_type ++
              ": " ++ e ++ ". Skipping " ++ cfg.name))
          | .ok objects =>
            match objects.mapM (fun o => buildRow o fields) with
            | .error e => .error e
            | .ok rows =>
              .ok (.exported
                { filename := cfg.stem ++ ".csv", header := fields,
                  rows := rows })

/-- The per-file loop at the end of backup_all (lines 602-604): plain
iteration with no exception handling, so an error from any file aborts the
remainder of the run. -/
def backup_all_loop (nb : Netbox)
    (fetch : Endpoint → Except String (List Obj)) :
    List ConfigFile → Except String (List RunResult)
  | [] => .ok []
  | cfg :: rest =>
    match backup_from_config nb fetch cfg with
    | .error e => .error e
    | .ok r =>
      match backup_all_loop nb fetch rest with
      | .error e => .error e
      | .ok rs => .ok (r :: rs)

/-- Normalization of a requested object-type name (lines 577-584): strip a
leading digits-hyphen order key when present. -/
def normalizeTypeName (ot : String) : String :=
  match numDashMatch ot.data with
  | some t => String.mk t
  | none => ot

/-- The restriction filter of backup_all (lines 575-596), applied to config
file stems: keep a stem iff its filename-derived type belongs to the
normalized requested set. -/
def selectConfigStems (object_types : List String) (stems : List String) :
    List String :=
  let normalized := object_types.map normalizeTypeName
  stems.filter (fun stem =>
    match numDashMatch stem.data with
    | some t => normalized.contains (String.mk t)
    | none => false)

/-! ### Predicates used by the statements -/

/-- Words produced by whitespace splitting: nonempty and whitespace-free. -/
def ValidWords (ws : List (List Char)) : Prop :=
  ∀ w ∈ ws, w ≠ [] ∧ ∀ c ∈ w, isWs c = false

/-- Whether an extraction result is a (non-raising) string. -/
def resultIsString : Except String Value → Bool
  | .ok (.vstr _) => true
  | _ => false

/-- A configuration error in the sense of the spec: missing or empty fields
list, nothing left after dropping id, or a malformed filename stem. -/
def configError (cfg : ConfigFile) : Prop :=
  cfg.fields = [] ∨ cfg.fields.filter (fun f => f ≠ "id") = [] ∨
    numDashMatch cfg.stem.data = none

/-- Both termination attributes, when present, hold actual Python lists. -/
def termListsOk (obj : Obj) : Prop :=
  (∀ v, lookupA obj "a_terminations" = some v → ∃ l, v = Value.vlist l) ∧
  (∀ v, lookupA obj "b_terminations" = some v → ∃ l, v = Value.vlist l)

/-- The object exposes none of the special-shape attributes that trigger
the assigned-object, wireless-link or cable-termination rules. -/
def noSpecialAttrs (obj : Obj) : Prop :=
  lookupA obj "assigned_object" = none ∧
  lookupA obj "interface_a" = none ∧ lookupA obj "interface_b" = none ∧
  lookupA obj "a_terminations" = none ∧ lookupA obj "b_terminations" = none

/-! ## Lemmas: whitespace splitting and joining -/

theorem splitWsGo_word (w : List Char) (hw : ∀ c ∈ w, isWs c = false) :
    ∀ (s acc : List Char), splitWsGo (w ++ s) acc = splitWsGo s (acc ++ w) := by
  induction w with
  | nil => intro s acc; simp
  | cons c t ih =>
    intro s acc
    have hc : isWs c = false := hw c (by simp)
    have ht : ∀ d ∈ t, isWs d = false := fun d hd => hw d (by simp [hd])
    rw [List.cons_append]
    show (if isWs c = true then _ else splitWsGo (t ++ s) (acc ++ [c])) = _
    rw [if_neg (by simp [hc]), ih ht s (acc ++ [c])]
    simp

theorem splitWsGo_space (s acc : List Char) (h : acc ≠ []) :
    splitWsGo (' ' :: s) acc = acc :: splitWsGo s [] := by
  show (if isWs ' ' = true then (if acc = [] then [] else [acc]) ++ splitWsGo s []
        else _) = _
  rw [if_pos (by decide), if_neg h]
  rfl

theorem splitWsGo_valid (s : List Char) :
    ∀ acc, (∀ c ∈ acc, isWs c = false) → ValidWords (splitWsGo s acc) := by
  induction s with
  | nil =>
    intro acc hacc w hw
    by_cases h : acc = []
    · simp [splitWsGo, h] at hw
    · simp [splitWsGo, h] at hw
      subst hw
      exact ⟨h, hacc⟩
  | cons c t ih =>
    intro acc hacc w hw
    by_cases hc : isWs c = true
    · rw [show splitWsGo (c :: t) acc =
          (if acc = [] then [] else [acc]) ++ splitWsGo t [] from by
            simp [splitWsGo, hc]] at hw
      rcases List.mem_append.mp hw with h1 | h2
      · by_cases h : acc = []
        · simp [h] at h1
        · simp [h] at h1
          subst h1
          exact ⟨h, hacc⟩
      · exact ih [] (by simp) w h2
    · rw [show splitWsGo (c :: t) acc = splitWsGo t (acc ++ [c]) from by
            simp [splitWsGo, hc]] at hw
      refine ih (acc ++ [c]) ?_ w hw
      intro d hd
      rcases List.mem_append.mp hd with h1 | h2
      · exact hacc d h1
      · simp at h2
        subst h2
        simpa using hc

theorem valid_splitWs (s : List Char) : ValidWords (splitWs s) :=
  splitWsGo_valid s [] (by simp)

theorem splitWs_joinWords (ws : List (List Char)) (h : ValidWords ws) :
    splitWs (joinWords ws) = ws := by
  induction ws with
  | nil => rfl
  | cons w ws ih =>
    obtain ⟨hw, hwc⟩ := h w (by simp)
    have hws : ValidWords ws := fun x hx => h x (by simp [hx])
    cases ws with
    | nil =>
      show splitWsGo (joinWords [w]) [] = [w]
      have h1 := splitWsGo_word w hwc [] []
      rw [List.append_nil] at h1
      simp only [joinWords, h1, List.nil_append]
      simp [splitWsGo, hw]
    | cons w2 ws2 =>
      show splitWsGo (joinWords (w :: w2 :: ws2)) [] = w :: w2 :: ws2
      have hj : joinWords (w :: w2 :: ws2) = w ++ ' ' :: joinWords (w2 :: ws2) :=
        rfl
      rw [hj, splitWsGo_word w hwc, List.nil_append, splitWsGo_space _ _ hw]
      exact congrArg (w :: ·) (ih hws)

theorem mem_joinWords {c : Char} :
    ∀ ws : List (List Char), c ∈ joinWords ws → c = ' ' ∨ ∃ w ∈ ws, c ∈ w := by
  intro ws
  induction ws with
  | nil => intro h; cases h
  | cons w ws ih =>
    cases ws with
    | nil =>
      intro h
      right
      exact ⟨w, by simp, by simpa [joinWords] using h⟩
    | cons w2 ws2 =>
      intro h
      have hj : joinWords (w :: w2 :: ws2) = w ++ ' ' :: joinWords (w2 :: ws2) :=
        rfl
      rw [hj] at h
      rcases List.mem_append.mp h with h1 | h2
      · right; exact ⟨w, by simp, h1⟩
      · rcases List.mem_cons.mp h2 with h3 | h4
        · left; exact h3
        · rcases ih h4 with h5 | ⟨x, hx, hcx⟩
          · left; exact h5
          · right; exact ⟨x, by simp [List.mem_cons.mp hx], hcx⟩

theorem joinWords_ne_nil (w : List Char) (ws : List (List Char))
    (hw : w ≠ []) : joinWords (w :: ws) ≠ [] := by
  cases ws <;> simp [joinWords, hw]

theorem joinWords_cons_shape (c : Char) (t : List Char)
    (ws : List (List Char)) : ∃ r, joinWords ((c :: t) :: ws) = c :: r := by
  cases ws with
  | nil => exact ⟨t, rfl⟩
  | cons w2 ws2 => exact ⟨t ++ ' ' :: joinWords (w2 :: ws2), rfl⟩

theorem hds_cons (c : Char) (r : List Char) (hc : c ≠ ' ')
    (hr : hasDoubleSpace r = false) : hasDoubleSpace (c :: r) = false := by
  cases r with
  | nil => rfl
  | cons d r2 => simp [hasDoubleSpace, hc, hr]

theorem hds_append (w s : List Char) (hw : ∀ c ∈ w, c ≠ ' ')
    (hs : hasDoubleSpace s = false) : hasDoubleSpace (w ++ s) = false := by
  induction w with
  | nil => simpa using hs
  | cons c t ih =>
    rw [List.cons_append]
    exact hds_cons c (t ++ s) (hw c (by simp))
      (ih (fun d hd => hw d (by simp [hd])))

theorem word_no_space (w : List Char) (h : ∀ c ∈ w, isWs c = false) :
    ∀ c ∈ w, c ≠ ' ' := by
  intro c hc he
  subst he
  have := h ' ' hc
  simp [isWs] at this

theorem hds_joinWords (ws : List (List Char)) (h : ValidWords ws) :
    hasDoubleSpace (joinWords ws) = false := by
  induction ws with
  | nil => rfl
  | cons w ws ih =>
    obtain ⟨hw, hwc⟩ := h w (by simp)
    have hws : ValidWords ws := fun x hx => h x (by simp [hx])
    cases ws with
    | nil =>
      show hasDoubleSpace (joinWords [w]) = false
      have : joinWords [w] = w ++ [] := by simp [joinWords]
      rw [this]
      exact hds_append w [] (word_no_space w hwc) rfl
    | cons w2 ws2 =>
      have hj : joinWords (w :: w2 :: ws2) = w ++ ' ' :: joinWords (w2 :: ws2) :=
        rfl
      rw [hj]
      refine hds_append w _ (word_no_space w hwc) ?_
      obtain ⟨hw2, hw2c⟩ := hws w2 (by simp)
      obtain ⟨c2, t2, rfl⟩ : ∃ c2 t2, w2 = c2 :: t2 := by
        cases w2 with
        | nil => exact absurd rfl hw2
        | cons a b => exact ⟨a, b, rfl⟩
      obtain ⟨r, hr⟩ := joinWords_cons_shape c2 t2 ws2
      rw [hr]
      have hc2 : c2 ≠ ' ' := word_no_space _ hw2c c2 (by simp)
      have htail : hasDoubleSpace (c2 :: r) = false := by
        rw [← hr]; exact ih hws
      simp [hasDoubleSpace, hc2, htail]

theorem getLast?_append_right (l₁ l₂ : List Char) (h : l₂ ≠ []) :
    (l₁ ++ l₂).getLast? = l₂.getLast? := by
  induction l₁ with
  | nil => rfl
  | cons a t ih =>
    have h2 : t ++ l₂ ≠ [] := by simp [h]
    obtain ⟨x, xs, hx⟩ := List.exists_cons_of_ne_nil h2
    rw [List.cons_append, hx, List.getLast?_cons_cons, ← hx, ih]

theorem joinWords_getLast (ws : List (List Char)) (h : ValidWords ws) :
    ∀ c, (joinWords ws).getLast? = some c → isWs c = false := by
  induction ws with
  | nil => intro c hc; cases hc
  | cons w ws ih =>
    obtain ⟨hw, hwc⟩ := h w (by simp)
    have hws : ValidWords ws := fun x hx => h x (by simp [hx])
    cases ws with
    | nil =>
      intro c hc
      have hcw : c ∈ w := by
        have : joinWords [w] = w := by simp [joinWords]
        rw [this] at hc
        exact List.mem_of_mem_getLast? hc
      exact hwc c hcw
    | cons w2 ws2 =>
      intro c hc
      obtain ⟨hw2, _⟩ := hws w2 (by simp)
      have hj : joinWords (w :: w2 :: ws2) = w ++ ' ' :: joinWords (w2 :: ws2) :=
        rfl
      have hne : joinWords (w2 :: ws2) ≠ [] := joinWords_ne_nil w2 ws2 hw2
      obtain ⟨x, xs, hx⟩ := List.exists_cons_of_ne_nil hne
      rw [hj, getLast?_append_right _ _ (by simp), hx,
        List.getLast?_cons_cons, ← hx] at hc
      exact ih hws c hc

theorem joinWords_head (ws : List (List Char)) (h : ValidWords ws) :
    ∀ c, (joinWords ws).head? = some c → isWs c = false := by
  intro c hc
  cases ws with
  | nil => cases hc
  | cons w ws2 =>
    obtain ⟨hw, hwc⟩ := h w (by simp)
    obtain ⟨c0, t0, rfl⟩ : ∃ c0 t0, w = c0 :: t0 := by
      cases w with
      | nil => exact absurd rfl hw
      | cons a b => exact ⟨a, b, rfl⟩
    obtain ⟨r, hr⟩ := joinWords_cons_shape c0 t0 ws2
    rw [hr] at hc
    have hcc : c0 = c := by simpa using hc
    rw [← hcc]
    exact hwc c0 (by simp)

/-! ## Lemmas: the newline replaces -/

theorem replaceCRLF_id (s : List Char) (h : '\r' ∉ s) : replaceCRLF s = s := by
  match s with
  | [] => rfl
  | [c] => rfl
  | c :: d :: rest =>
    have hc : c ≠ '\r' := fun hc => h (by simp [hc])
    rw [replaceCRLF, if_neg (by tauto)]
    exact congrArg (c :: ·)
      (replaceCRLF_id (d :: rest) (fun hd => h (List.mem_cons_of_mem _ hd)))

theorem replaceChar_id (a b : Char) (s : List Char) (h : a ∉ s) :
    replaceChar a b s = s := by
  induction s with
  | nil => rfl
  | cons c t ih =>
    have hc : c ≠ a := fun hc => h (by simp [hc])
    simp only [replaceChar, List.map_cons, if_neg hc]
    exact congrArg (c :: ·) (ih (fun hd => h (List.mem_cons_of_mem _ hd)))

theorem normChars_mem (s : List Char) (c : Char) (h : c ∈ normChars s) :
    c = ' ' ∨ isWs c = false := by
  rcases mem_joinWords _ h with h1 | ⟨w, hw, hcw⟩
  · left; exact h1
  · right; exact ((valid_splitWs _) w hw).2 c hcw

theorem normChars_no_newline (s : List Char) :
    '\n' ∉ normChars s ∧ '\r' ∉ normChars s := by
  constructor
  · intro h
    rcases normChars_mem s '\n' h with h1 | h1
    · exact absurd h1 (by decide)
    · exact absurd h1 (by decide)
  · intro h
    rcases normChars_mem s '\r' h with h1 | h1
    · exact absurd h1 (by decide)
    · exact absurd h1 (by decide)

theorem flattenNewlines_normChars (s : List Char) :
    flattenNewlines (normChars s) = normChars s := by
  obtain ⟨hn, hr⟩ := normChars_no_newline s
  unfold flattenNewlines
  rw [replaceCRLF_id _ hr, replaceChar_id _ _ _ hn, replaceChar_id _ _ _ hr]

theorem normChars_idem (t : List Char) : normChars (normChars t) = normChars t := by
  show joinWords (splitWs (flattenNewlines (normChars t))) = normChars t
  rw [flattenNewlines_normChars t]
  show joinWords (splitWs (joinWords (splitWs (flattenNewlines t)))) = _
  rw [splitWs_joinWords _ (valid_splitWs _)]
  rfl

/-! ## Claim C4 -/

/-- C4: string normalization is idempotent: for every string s,
normalize (normalize s) equals normalize s. -/
theorem c4_normalize_idempotent (s : String) :
    normalize (normalize s) = normalize s := by
  show String.mk (normChars (String.mk (normChars s.data)).data) =
    String.mk (normChars s.data)
  exact congrArg String.mk (normChars_idem s.data)

/-! ## Claim C5 -/

/-- C5: for every input string, the result of normalization contains no
newline and no carriage-return character, no run of two or more
consecutive space characters, and has no leading or trailing whitespace
(its first and last characters are not whitespace). -/
theorem c5_normalize_flat (s : String) :
    (∀ c ∈ (normalize s).data, c ≠ '\n' ∧ c ≠ '\r') ∧
    hasDoubleSpace (normalize s).data = false ∧
    (∀ c, (normalize s).data.head? = some c → isWs c = false) ∧
    (∀ c, (normalize s).data.getLast? = some c → isWs c = false) := by
  refine ⟨?_, ?_, ?_, ?_⟩
  · intro c hc
    obtain ⟨hn, hr⟩ := normChars_no_newline s.data
    exact ⟨fun he => hn (he ▸ hc), fun he => hr (he ▸ hc)⟩
  · exact hds_joinWords _ (valid_splitWs _)
  · exact joinWords_head _ (valid_splitWs _)
  · exact joinWords_getLast _ (valid_splitWs _)

/-- Witness for c5_normalize_flat at a concrete multi-line input with
runs of blanks; the normalized form also evaluates concretely. -/
theorem c5_normalize_flat_witness :
    normalize (String.mk ['a', '\r', '\n', '\n', 'b', ' ', ' ', 'c', ' ']) =
      "a b c" ∧
    hasDoubleSpace
      (normalize (String.mk ['a', '\r', '\n', '\n', 'b', ' ', ' ', 'c', ' '])).data
      = false ∧
    ('\n' ∈
      (normalize (String.mk ['a', '\r', '\n', '\n', 'b', ' ', ' ', 'c', ' '])).data
      → False) :=
  ⟨by decide,
   (c5_normalize_flat (String.mk ['a', '\r', '\n', '\n', 'b', ' ', ' ', 'c', ' '])).2.1,
   fun h =>
     ((c5_normalize_flat
       (String.mk ['a', '\r', '\n', '\n', 'b', ' ', ' ', 'c', ' '])).1 '\n' h).1 rfl⟩

/-! ## Lemmas: the extractor on single-attribute objects -/

theorem extract_singleton (field : String) (v : Value)
    (hia : field ≠ "interface_a") (hib : field ≠ "interface_b") :
    extract_field_value [(field, v)] field =
      Except.ok (extractBase [(field, v)] field) := by
  unfold extract_field_value
  have h2 : lookupA [(field, v)] "interface_a" = none := by
    simp [lookupA, hia]
  have h3 : lookupA [(field, v)] "interface_b" = none := by
    simp [lookupA, hib]
  rw [h2, h3]
  by_cases hao : field = "assigned_object"
  · subst hao
    simp [lookupA]
  · have h1 : lookupA [(field, v)] "assigned_object" = none := by
      simp [lookupA, hao]
    rw [h1]
    by_cases hat : field = "a_terminations"
    · subst hat
      simp [lookupA, truthyV, sideFieldNames]
    · by_cases hbt : field = "b_terminations"
      · subst hbt
        simp [lookupA, truthyV, sideFieldNames]
      · have h4 : lookupA [(field, v)] "a_terminations" = none := by
          simp [lookupA, hat]
        have h5 : lookupA [(field, v)] "b_terminations" = none := by
          simp [lookupA, hbt]
        rw [h4, h5]
        simp [truthyV]

theorem extractBase_singleton_dict (field : String) (d : List (String × Value))
    (hn : lookupA d "name" = none) (hi : lookupA d "id" = none) :
    extractBase [(field, Value.vdict d)] field =
      (choiceCore field d).getD (Value.vstr "") := by
  unfold extractBase
  have hl : lookupA [(field, Value.vdict d)] field = some (Value.vdict d) := by
    simp [lookupA]
  rw [hl]
  simp [relationshipValue, hn, hi]

/-! ## Claim C3 -/

/-- C3: for a choice-enum field whose raw value is a value-label shaped
dict: the fields action_type and status get the machine value entry; every
other such field gets the human label entry, falling back to the value
entry if the label is empty and to the first value in the structure if
both are empty.  (The wireless sided names interface_a and interface_b are
excluded as the wireless rule intercepts them earlier in the chain.) -/
theorem c3_choice_enum (field : String) (v l : String)
    (hia : field ≠ "interface_a") (hib : field ≠ "interface_b") :
    ((field = "action_type" ∨ field = "status") → v ≠ "" →
      extract_field_value
        [(field, Value.vdict [("value", Value.vstr v), ("label", Value.vstr l)])]
        field = Except.ok (Value.vstr v)) ∧
    (field ≠ "action_type" → field ≠ "status" → l ≠ "" →
      extract_field_value
        [(field, Value.vdict [("value", Value.vstr v), ("label", Value.vstr l)])]
        field = Except.ok (Value.vstr l)) ∧
    (field ≠ "action_type" → field ≠ "status" → l = "" → v ≠ "" →
      extract_field_value
        [(field, Value.vdict [("value", Value.vstr v), ("label", Value.vstr l)])]
        field = Except.ok (Value.vstr v)) ∧
    (l = "" → v = "" →
      extract_field_value
        [(field, Value.vdict [("value", Value.vstr v), ("label", Value.vstr l)])]
        field = Except.ok (Value.vstr "")) := by
  have hbase : extract_field_value
      [(field, Value.vdict [("value", Value.vstr v), ("label", Value.vstr l)])]
      field =
      Except.ok ((choiceCore field
        [("value", Value.vstr v), ("label", Value.vstr l)]).getD (Value.vstr "")) := by
    rw [extract_singleton field _ hia hib,
      extractBase_singleton_dict field _ (by simp [lookupA]) (by simp [lookupA])]
  refine ⟨?_, ?_, ?_, ?_⟩
  · intro hp hv
    rw [hbase]
    simp [choiceCore, lookupA, truthyV, pyStr, hp, hv]
  · intro h1 h2 hl
    rw [hbase]
    simp [choiceCore, lookupA, truthyV, pyStr, h1, h2, hl]
  · intro h1 h2 hl hv
    rw [hbase]
    simp [choiceCore, lookupA, truthyV, pyStr, h1, h2, hl, hv]
  · intro hl hv
    rw [hbase]
    by_cases hp : field = "action_type" ∨ field = "status" <;>
      simp [choiceCore, lookupA, truthyV, pyStr, pyRepr, hp, hl, hv]

/-- Witness for c3_choice_enum: status prefers the machine value, a
non-preferred field prefers the label. -/
theorem c3_choice_enum_witness :
    extract_field_value
      [("status", Value.vdict
        [("value", Value.vstr "active"), ("label", Value.vstr "Active")])]
      "status" = Except.ok (Value.vstr "active") ∧
    extract_field_value
      [("state", Value.vdict
        [("value", Value.vstr "active"), ("label", Value.vstr "Active")])]
      "state" = Except.ok (Value.vstr "Active") :=
  ⟨(c3_choice_enum "status" "active" "Active" (by decide) (by decide)).1
      (Or.inr rfl) (by decide),
   (c3_choice_enum "state" "active" "Active" (by decide) (by decide)).2.1
      (by decide) (by decide) (by decide)⟩

/-! ## Claim C9 -/

/-- C9: a named-relationship field whose dict value has neither a name nor
an id key falls through the relationship rule into the choice-enum dict
handling: the result is the dict label, else its value, else the string of
its first entry value, not the empty-string short circuit. -/
theorem c9_relationship_dict_fallthrough (field : String)
    (d : List (String × Value)) (hf : field ∈ relationship_name_fields)
    (hn : lookupA d "name" = none) (hi : lookupA d "id" = none) :
    extract_field_value [(field, Value.vdict d)] field =
      Except.ok ((choiceCore field d).getD (Value.vstr "")) ∧
    (∀ l, lookupA d "label" = some (Value.vstr l) → l ≠ "" →
      extract_field_value [(field, Value.vdict d)] field =
        Except.ok (Value.vstr l)) ∧
    (∀ v, lookupA d "label" = none → lookupA d "value" = some (Value.vstr v) →
      v ≠ "" →
      extract_field_value [(field, Value.vdict d)] field =
        Except.ok (Value.vstr v)) ∧
    (∀ k v0 rest2, lookupA d "label" = none → lookupA d "value" = none →
      d = (k, v0) :: rest2 →
      extract_field_value [(field, Value.vdict d)] field =
        Except.ok (Value.vstr (pyStr v0))) := by
  obtain ⟨hat, hst, hia, hib⟩ :=
    (by decide :
      ∀ f ∈ relationship_name_fields,
        f ≠ "action_type" ∧ f ≠ "status" ∧
        f ≠ "interface_a" ∧ f ≠ "interface_b") field hf
  have hbase : extract_field_value [(field, Value.vdict d)] field =
      Except.ok ((choiceCore field d).getD (Value.vstr "")) := by
    rw [extract_singleton field _ hia hib,
      extractBase_singleton_dict field d hn hi]
  refine ⟨hbase, ?_, ?_, ?_⟩
  · intro l hl hlne
    rw [hbase]
    simp [choiceCore, hat, hst, hl, truthyV, pyStr, hlne]
  · intro v hl hv hvne
    rw [hbase]
    simp [choiceCore, hat, hst, hl, hv, truthyV, pyStr, hvne]
  · intro k v0 rest2 hl hv hd
    rw [hbase]
    subst hd
    simp [choiceCore, hat, hst, hl, hv]

/-- Witness for c9_relationship_dict_fallthrough: a group field holding a
dict with only label and value keys exports the label. -/
theorem c9_relationship_dict_fallthrough_witness :
    extract_field_value
      [("group", Value.vdict
        [("value", Value.vstr "grp"), ("label", Value.vstr "GrpLabel")])]
      "group" = Except.ok (Value.vstr "GrpLabel") :=
  (c9_relationship_dict_fallthrough "group"
      [("value", Value.vstr "grp"), ("label", Value.vstr "GrpLabel")]
      (by decide) (by simp [lookupA]) (by simp [lookupA])).2.1
    "GrpLabel" (by simp [lookupA]) (by decide)

/-! ## Claim C8 -/

/-- C8: when the assigned_object attribute is present but falsy (for
example None), the polymorphic assigned-object rule does not apply and
extracting device, virtual_machine or interface falls through to ordinary
base attribute lookup on the object itself, not the empty string. -/
theorem c8_falsy_assigned_object (av : Value) (field : String) (s : String)
    (hav : truthyV av = false)
    (hf : field = "device" ∨ field = "virtual_machine" ∨ field = "interface")
    (hs : s ≠ "") :
    extract_field_value [("assigned_object", av), (field, Value.vstr s)] field =
      Except.ok (Value.vstr s) ∧
    extract_field_value [("assigned_object", av), (field, Value.vstr s)] field ≠
      Except.ok (Value.vstr "") := by
  have hmain : extract_field_value
      [("assigned_object", av), (field, Value.vstr s)] field =
      Except.ok (Value.vstr s) := by
    rcases hf with hf | hf | hf <;> subst hf <;>
      simp [extract_field_value, lookupA, hav, extractBase,
        relationship_name_fields, relationshipValue, hasattrV, pyStr,
        sideFieldNames, wirelessFieldNames]
  refine ⟨hmain, ?_⟩
  rw [hmain]
  simp [hs]

/-- Witness for c8_falsy_assigned_object: a None assigned_object with a
plain device attribute exports the device attribute. -/
theorem c8_falsy_assigned_object_witness :
    extract_field_value
      [("assigned_object", Value.vnull), ("device", Value.vstr "rtr1")]
      "device" = Except.ok (Value.vstr "rtr1") :=
  (c8_falsy_assigned_object Value.vnull "device" "rtr1" rfl (Or.inl rfl)
    (by decide)).1

/-! ## Claim C2 -/

theorem cableSide_isOk (obj : Obj) (k : String) (f : Value → Value)
    (h : ∀ v, lookupA obj k = some v → ∃ l, v = Value.vlist l) :
    (cableSide obj k f).isOk = true := by
  unfold cableSide
  cases hl : lookupA obj k with
  | none => simp [truthyV, Except.isOk, Except.toBool]
  | some v =>
    obtain ⟨l, rfl⟩ := h v hl
    cases l with
    | nil => simp [truthyV, Except.isOk, Except.toBool]
    | cons x xs => simp [truthyV, pyLen, pyIndex0, Except.isOk, Except.toBool]

/-- C2 counterexample: the claim says extraction always returns a string,
but a relationship field whose value is a Record exposing only an integer
id returns the raw integer (backup.py line 330 returns value.id without
str). -/
theorem c2_counterexample_nonstring :
    extract_field_value [("region", Value.vrec [("id", Value.vint 5)])]
      "region" = Except.ok (Value.vint 5) ∧
    resultIsString
      (extract_field_value [("region", Value.vrec [("id", Value.vint 5)])]
        "region") = false :=
  ⟨rfl, rfl⟩

/-- C2 amended: extraction never raises provided the termination-list
attributes (when present) hold actual lists, and for objects without the
special-shape attributes an absent or null field yields the empty string;
the result, however, need not be a string (raw name and id attribute
values are returned in the relationship and nested-object branches). -/
theorem c2_extract_total_amended :
    (∀ (obj : Obj) (field : String), termListsOk obj →
      (extract_field_value obj field).isOk = true) ∧
    (∀ (obj : Obj) (field : String), noSpecialAttrs obj →
      (lookupA obj field).getD Value.vnull = Value.vnull →
      extract_field_value obj field = Except.ok (Value.vstr "")) := by
  constructor
  · rintro obj field ⟨ha, hb⟩
    unfold extract_field_value
    split_ifs with h1 h2 h3
    · rfl
    · rfl
    · unfold cableField
      split_ifs <;>
        first
          | exact cableSide_isOk _ _ _ ha
          | exact cableSide_isOk _ _ _ hb
          | rfl
    · rfl
  · rintro obj field ⟨h1, h2, h3, h4, h5⟩ hv
    unfold extract_field_value
    rw [h1, h2, h3, h4, h5]
    simp only [Option.getD_none, Option.isSome_none, Bool.or_self,
      Bool.false_and, Bool.if_false_left]
    simp only [truthyV, Bool.false_and, if_neg (by simp : ¬False)]
    unfold extractBase
    rw [hv]
    simp

/-- Witness for c2_extract_total_amended: an empty termination list never
raises, and a missing field on a plain object yields the empty string. -/
theorem c2_extract_total_amended_witness :
    (extract_field_value [("a_terminations", Value.vlist [])]
      "side_a_device").isOk = true ∧
    extract_field_value [("name", Value.vnull)] "missing" =
      Except.ok (Value.vstr "") :=
  ⟨c2_extract_total_amended.1 [("a_terminations", Value.vlist [])]
      "side_a_device"
      ⟨fun v h => ⟨[], by simp [lookupA] at h; exact h.symm⟩,
       fun v h => by simp [lookupA] at h⟩,
   c2_extract_total_amended.2 [("name", Value.vnull)] "missing"
      ⟨rfl, rfl, rfl, rfl, rfl⟩ rfl⟩

/-! ## Claim C7 -/

theorem splitOnHyphen_ne_nil (s : List Char) : splitOnHyphen s ≠ [] := by
  cases s with
  | nil => simp [splitOnHyphen]
  | cons c rest =>
    by_cases hc : c = '-'
    · simp [splitOnHyphen, hc]
    · simp only [splitOnHyphen, if_neg hc]
      cases h : splitOnHyphen rest <;> simp

theorem splitOnHyphen_length (s : List Char) :
    (splitOnHyphen s).length = s.count '-' + 1 := by
  induction s with
  | nil => rfl
  | cons c rest ih =>
    by_cases hc : c = '-'
    · subst hc
      simp [splitOnHyphen, List.count_cons, ih]
    · simp only [splitOnHyphen, if_neg hc]
      cases h : splitOnHyphen rest with
      | nil => exact absurd h (splitOnHyphen_ne_nil rest)
      | cons w ws =>
        rw [h] at ih
        simp only [List.length_cons] at ih ⊢
        rw [List.count_cons_of_ne (fun hh => hc hh.symm)]
        omega

/-- C7: endpoint resolution tries, in order, the static table, the table
keyed with hyphens replaced by underscores, and the dynamic two-level
lookup which applies only when the name splits on hyphens into exactly two
parts; when everything fails it raises the unknown-object-type error, so a
name with two or more hyphens that is in the table under neither key form
always fails. -/
theorem c7_endpoint_resolution (nb : Netbox) (t : String) :
    (∀ e, lookupA endpoint_map t = some e →
      get_netbox_endpoint nb t = Except.ok e) ∧
    (lookupA endpoint_map t = none →
      ∀ e, lookupA endpoint_map (underscoreName t) = some e →
        get_netbox_endpoint nb t = Except.ok e) ∧
    (lookupA endpoint_map t = none →
      lookupA endpoint_map (underscoreName t) = none →
      ∀ app res attrs, splitOnHyphen t.data = [app, res] →
        lookupA nb (String.mk app) = some attrs →
        attrs.contains
          (String.mk (res.map (fun c => if c = '-' then '_' else c))) = true →
        get_netbox_endpoint nb t =
          Except.ok (String.mk app,
            String.mk (res.map (fun c => if c = '-' then '_' else c)))) ∧
    (lookupA endpoint_map t = none →
      lookupA endpoint_map (underscoreName t) = none →
      2 ≤ t.data.count '-' →
      get_netbox_endpoint nb t =
        Except.error ("Unknown object type: " ++ t)) := by
  refine ⟨?_, ?_, ?_, ?_⟩
  · intro e he
    unfold get_netbox_endpoint
    rw [he]
  · intro h1 e he
    unfold get_netbox_endpoint
    rw [h1, he]
  · intro h1 h2 app res attrs hs hnb hc
    unfold get_netbox_endpoint
    rw [h1, h2, hs]
    simp [hnb, hc]
    exact List.mem_of_elem_eq_true hc
  · intro h1 h2 hcount
    unfold get_netbox_endpoint
    rw [h1, h2]
    have hlen : (splitOnHyphen t.data).length = t.data.count '-' + 1 :=
      splitOnHyphen_length _
    cases hsp : splitOnHyphen t.data with
    | nil => exact absurd hsp (splitOnHyphen_ne_nil _)
    | cons a l1 =>
      cases l1 with
      | nil =>
        rw [hsp] at hlen
      | cons b l2 =>
        cases l2 with
        | nil =>
          rw [hsp] at hlen
          simp only [List.length_cons, List.length_nil] at hlen
          omega
        | cons c3 l3 => rfl

/-- Witness for c7_endpoint_resolution: an exact table hit resolves, and a
double-hyphen name absent from the table fails. -/
theorem c7_endpoint_resolution_witness :
    get_netbox_endpoint [] "tags" = Except.ok ("extras", "tags") ∧
    get_netbox_endpoint [] "foo-bar-baz" =
      Except.error "Unknown object type: foo-bar-baz" :=
  ⟨(c7_endpoint_resolution [] "tags").1 ("extras", "tags") rfl,
   (c7_endpoint_resolution [] "foo-bar-baz").2.2.2 rfl rfl (by decide)⟩

/-! ## Claim C10 -/

/-- C10: restricting the run to named object types strips an optional
leading digits-hyphen order key from each given name, so a name given as
1-tags selects exactly the configuration files that tags selects, and a
configuration stem is kept iff its filename-derived type is in the
normalized set. -/
theorem c10_type_restriction :
    (∀ stems, selectConfigStems ["1-tags"] stems =
      selectConfigStems ["tags"] stems) ∧
    (∀ (types stems : List String) (stem : String),
      stem ∈ selectConfigStems types stems ↔
        stem ∈ stems ∧ ∃ t, numDashMatch stem.data = some t ∧
          String.mk t ∈ types.map normalizeTypeName) := by
  constructor
  · intro stems
    rfl
  · intro types stems stem
    unfold selectConfigStems
    rw [List.mem_filter]
    constructor
    · rintro ⟨h1, h2⟩
      refine ⟨h1, ?_⟩
      cases hm : numDashMatch stem.data with
      | none => rw [hm] at h2; cases h2
      | some t =>
        rw [hm] at h2
        exact ⟨t, rfl, List.mem_of_elem_eq_true h2⟩
    · rintro ⟨h1, t, hm, ht⟩
      refine ⟨h1, ?_⟩
      rw [hm]
      exact List.elem_eq_true_of_mem ht

/-- Witness for c10_type_restriction: requesting 1-tags selects the stem
2-tags. -/
theorem c10_type_restriction_witness :
    "2-tags" ∈ selectConfigStems ["1-tags"] ["2-tags", "3-sites"] :=
  (c10_type_restriction.2 ["1-tags"] ["2-tags", "3-sites"] "2-tags").mpr
    ⟨by decide, "tags".data, by decide, by decide⟩

/-! ## Claim C6 -/

theorem buildRow_fst (obj : Obj) (fields : List String)
    (row : List (String × String)) (h : buildRow obj fields = Except.ok row) :
    row.map Prod.fst = fields.filter (fun f => f ≠ "id") := by
  unfold buildRow at h
  generalize fields.filter (fun f => f ≠ "id") = l at h ⊢
  induction l generalizing row with
  | nil =>
    rw [List.mapM_nil] at h
    cases h
    rfl
  | cons f fs ih =>
    rw [List.mapM_cons] at h
    cases hx : rowValue obj f with
    | error e =>
      rw [show (rowValue obj f).map (fun v => (f, cellString v)) =
          Except.error e from by rw [hx]; rfl] at h
      cases h
    | ok v =>
      rw [show (rowValue obj f).map (fun v => (f, cellString v)) =
          Except.ok (f, cellString v) from by rw [hx]; rfl] at h
      cases hrest : fs.mapM (fun f => (rowValue obj f).map
          (fun v => (f, cellString v))) with
      | error e =>
        rw [show ((Except.ok (f, cellString v) : Except String (String × String))
            >>= fun x => (fs.mapM (fun f => (rowValue obj f).map
              (fun v => (f, cellString v)))) >>= fun xs => pure (x :: xs)) =
            Except.error e from by rw [hrest]; rfl] at h
        cases h
      | ok xs =>
        rw [show ((Except.ok (f, cellString v) : Except String (String × String))
            >>= fun x => (fs.mapM (fun f => (rowValue obj f).map
              (fun v => (f, cellString v)))) >>= fun xs => pure (x :: xs)) =
            Except.ok ((f, cellString v) :: xs) from by rw [hrest]; rfl] at h
        cases h
        simp only [List.map_cons]
        exact congrArg (f :: ·) (ih xs hrest)

theorem mapM_ok_mem {α β : Type} (g : α → Except String β) :
    ∀ (l : List α) (r : List β), l.mapM g = Except.ok r →
      ∀ b ∈ r, ∃ a ∈ l, g a = Except.ok b := by
  intro l
  induction l with
  | nil =>
    intro r h b hb
    rw [List.mapM_nil] at h
    cases h
    cases hb
  | cons a t ih =>
    intro r h b hb
    rw [List.mapM_cons] at h
    cases hga : g a with
    | error e => rw [show ((g a) >>= fun x => (t.mapM g) >>= fun xs =>
        pure (x :: xs)) = Except.error e from by rw [hga]; rfl] at h; cases h
    | ok v =>
      cases hrest : t.mapM g with
      | error e =>
        rw [show ((g a) >>= fun x => (t.mapM g) >>= fun xs =>
          pure (x :: xs)) = Except.error e from by rw [hga, hrest]; rfl] at h
        cases h
      | ok xs =>
        rw [show ((g a) >>= fun x => (t.mapM g) >>= fun xs =>
          pure (x :: xs)) = Except.ok (v :: xs) from by rw [hga, hrest]; rfl] at h
        cases h
        rcases List.mem_cons.mp hb with hb | hb
        · subst hb
          exact ⟨a, by simp, hga⟩
        · obtain ⟨a2, ha2, hga2⟩ := ih xs hrest b hb
          exact ⟨a2, by simp [ha2], hga2⟩

/-- C6: for a configuration whose fields list contains id, a successful
export has header equal to the configured fields with every id removed, in
order; id never appears in the header and every data row lists exactly the
header fields in order. -/
theorem c6_id_removed (nb : Netbox)
    (fetch : Endpoint → Except String (List Obj)) (cfg : ConfigFile)
    (_hid : "id" ∈ cfg.fields) (out : CsvOutput)
    (h : backup_from_config nb fetch cfg = Except.ok (RunResult.exported out)) :
    out.header = cfg.fields.filter (fun f => f ≠ "id") ∧
    "id" ∉ out.header ∧
    ∀ row ∈ out.rows, row.map Prod.fst = out.header := by
  unfold backup_from_config at h
  by_cases he1 : cfg.fields.isEmpty
  · rw [if_pos he1] at h; exact absurd h (by simp)
  rw [if_neg he1] at h
  by_cases he2 : (cfg.fields.filter (fun f => f ≠ "id")).isEmpty
  · rw [if_pos he2] at h; exact absurd h (by simp)
  rw [if_neg he2] at h
  split at h
  · exact absurd h (by simp)
  simp only [] at h
  split at h
  · exact absurd h (by simp)
  split at h
  · exact absurd h (by simp)
  split at h
  · exact absurd h (by simp)
  rename_i x2 objs heqf x3 rows heqr
  have hout : (⟨cfg.stem ++ ".csv",
      cfg.fields.filter (fun f => f ≠ "id"), rows⟩ : CsvOutput) = out := by
    injection h with h1
    injection h1 with h2
    try exact h2
  subst hout
  refine ⟨rfl, ?_, ?_⟩
  · intro hmem
    have := List.of_mem_filter hmem
    simp at this
  · intro row hrow
    obtain ⟨o, _, hb⟩ := mapM_ok_mem _ objs rows heqr row hrow
    rw [buildRow_fst o _ row hb]
    simp [List.filter_filter]

/-- Witness for c6_id_removed: a two-field configuration listing id
exports only the name column. -/
theorem c6_id_removed_witness :
    (["name"] : List String) = ["id", "name"].filter (fun f => f ≠ "id") ∧
    "id" ∉ (["name"] : List String) ∧
    ∀ row ∈ [[(("name" : String), ("site-a" : String))]],
      row.map Prod.fst = (["name"] : List String) :=
  c6_id_removed []
    (fun _ => Except.ok [[("name", Value.vstr "site-a"), ("id", Value.vint 7)]])
    { name := "conf/3-sites.yml", stem := "3-sites", fields := ["id", "name"] }
    (by decide)
    { filename := "3-sites.csv", header := ["name"],
      rows := [[("name", "site-a")]] }
    rfl

/-! ## Claim C1 -/

/-- C1 counterexample: with an empty-fields configuration first, the loop
raises and aborts: the remaining well-formed configuration file is not
processed, although on its own it would export successfully. -/
theorem c1_counterexample_abort :
    backup_all_loop [] (fun _ => Except.ok [])
      [{ name := "conf/1-tags.yml", stem := "1-tags", fields := [] },
       { name := "conf/2-sites.yml", stem := "2-sites", fields := ["name"] }] =
      Except.error "No fields specified in configuration file: conf/1-tags.yml" ∧
    backup_from_config [] (fun _ => Except.ok [])
      { name := "conf/2-sites.yml", stem := "2-sites", fields := ["name"] } =
      Except.ok (RunResult.exported
        { filename := "2-sites.csv", header := ["name"], rows := [] }) :=
  ⟨rfl, rfl⟩

/-- C1 amended: a configuration error (missing or empty fields, or a
malformed filename) raises in backup_from_config and propagates through
the unprotected loop of backup_all, aborting the run with none of the
remaining configuration files processed; by contrast an unknown-object-
type resolution failure only prints a warning, skips that file, and the
loop continues with the rest. -/
theorem c1_config_error_aborts :
    (∀ (nb : Netbox) (fetch : Endpoint → Except String (List Obj))
       (cfg : ConfigFile) (rest : List ConfigFile), configError cfg →
       ∃ e, backup_all_loop nb fetch (cfg :: rest) = Except.error e) ∧
    (∀ (nb : Netbox) (fetch : Endpoint → Except String (List Obj))
       (cfg : ConfigFile) (rest : List ConfigFile) (ot : List Char)
       (e : String),
       cfg.fields.isEmpty = false →
       (cfg.fields.filter (fun f => f ≠ "id")).isEmpty = false →
       numDashMatch cfg.stem.data = some ot →
       get_netbox_endpoint nb (String.mk ot) = Except.error e →
       ∀ rs, backup_all_loop nb fetch rest = Except.ok rs →
         backup_all_loop nb fetch (cfg :: rest) =
           Except.ok (RunResult.skipped
             ("Warning: " ++ e ++ ". Skipping " ++ cfg.name) :: rs)) := by
  constructor
  · rintro nb fetch cfg rest (h1 | h2 | h3)
    · have hb : backup_from_config nb fetch cfg = Except.error
          ("No fields specified in configuration file: " ++ cfg.name) := by
        unfold backup_from_config
        rw [if_pos (by simp [h1])]
      exact ⟨_, by unfold backup_all_loop; rw [hb]⟩
    · obtain ⟨e, hb⟩ : ∃ e, backup_from_config nb fetch cfg =
          Except.error e := by
        unfold backup_from_config
        by_cases hempty : cfg.fields.isEmpty
        · rw [if_pos hempty]; exact ⟨_, rfl⟩
        · rw [if_neg hempty, if_pos (show (cfg.fields.filter
              (fun f => f ≠ "id")).isEmpty = true by rw [h2]; rfl)]
          exact ⟨_, rfl⟩
      exact ⟨e, by unfold backup_all_loop; rw [hb]⟩
    · obtain ⟨e, hb⟩ : ∃ e, backup_from_config nb fetch cfg =
          Except.error e := by
        unfold backup_from_config
        by_cases hempty : cfg.fields.isEmpty
        · rw [if_pos hempty]; exact ⟨_, rfl⟩
        rw [if_neg hempty]
        by_cases hf2 : (cfg.fields.filter (fun f => f ≠ "id")).isEmpty
        · rw [if_pos hf2]; exact ⟨_, rfl⟩
        rw [if_neg hf2, h3]
        exact ⟨_, rfl⟩
      exact ⟨e, by unfold backup_all_loop; rw [hb]⟩
  · intro nb fetch cfg rest ot e hne hfne hmatch hep rs hrest
    have hb : backup_from_config nb fetch cfg = Except.ok (RunResult.skipped
        ("Warning: " ++ e ++ ". Skipping " ++ cfg.name)) := by
      unfold backup_from_config
      rw [if_neg (show ¬cfg.fields.isEmpty = true by
          rw [hne]; exact Bool.false_ne_true),
        if_neg (show ¬(cfg.fields.filter (fun f => f ≠ "id")).isEmpty = true by
          rw [hfne]; exact Bool.false_ne_true), hmatch]
      simp [hep]
    unfold backup_all_loop
    rw [hb, hrest]

/-- Witness for c1_config_error_aborts: an empty-fields file aborts a
one-file run; an unresolvable object type is skipped and the loop
finishes. -/
theorem c1_config_error_aborts_witness :
    (∃ e, backup_all_loop [] (fun _ => Except.ok [])
      [{ name := "conf/9-bad.yml", stem := "9-bad", fields := [] }] =
        Except.error e) ∧
    backup_all_loop [] (fun _ => Except.ok [])
      [{ name := "conf/7-widgets.yml", stem := "7-widgets",
         fields := ["name"] }] =
      Except.ok [RunResult.skipped
        "Warning: Unknown object type: widgets. Skipping conf/7-widgets.yml"] :=
  ⟨c1_config_error_aborts.1 [] (fun _ => Except.ok [])
      { name := "conf/9-bad.yml", stem := "9-bad", fields := [] } []
      (Or.inl rfl),
   c1_config_error_aborts.2 [] (fun _ => Except.ok [])
      { name := "conf/7-widgets.yml", stem := "7-widgets", fields := ["name"] }
      [] "widgets".data "Unknown object type: widgets" rfl rfl (by decide) rfl
      [] rfl⟩

end NetboxBackup
